import Mathlib

/-!
Verification of the robo-news pipeline workers against their specification.

The Rust sources under `src/` (downloader-feed1, scraper, rewriter,
illustrator, publisher, parser-feed1) are shallowly embedded below.
Strings are modelled as Lean `String` / `List Char`; Rust byte lengths are
modelled as sums of per-character UTF-8 sizes (all embedded functions cut
only at character boundaries, exactly as the Rust code does); HTTP, SQLite,
file IO, JSON and base64 are external collaborators and appear as explicit
arguments or as the already-decoded values they produce.
-/

/-! ## Rust string primitives shared by the workers -/

/-- The Unicode code points for which Rust `char::is_whitespace` returns true
(the `White_Space` property), used by Rust `str::trim`. -/
def rustIsWhitespace (c : Char) : Bool :=
  [' ', '\t', '\n', '\x0B', '\x0C', '\r', '\u0085', '\u00A0', '\u1680',
   '\u2000', '\u2001', '\u2002', '\u2003', '\u2004', '\u2005', '\u2006',
   '\u2007', '\u2008', '\u2009', '\u200A', '\u2028', '\u2029', '\u202F',
   '\u205F', '\u3000'].contains c

/-- Rust `str::trim`: remove whitespace from both ends. -/
def rustTrim (l : List Char) : List Char :=
  ((l.dropWhile rustIsWhitespace).reverse.dropWhile rustIsWhitespace).reverse

/-- Rust `str::len`: the UTF-8 byte length of a string. -/
def rustLen (s : String) : Nat :=
  (s.data.map Char.utf8Size).sum

/-- Rust `str::encode_utf16().count()`: UTF-16 code units, counting code
points at or above U+10000 as a surrogate pair (2 units). -/
def utf16Count (l : List Char) : Nat :=
  (l.map (fun c => if 0x10000 ≤ c.toNat then 2 else 1)).sum

/-- Rust `char::to_ascii_lowercase` applied character-wise
(`str::to_ascii_lowercase`); ASCII uppercase letters are lowered, all other
characters are unchanged. -/
def asciiLower (c : Char) : Char :=
  if 'A' ≤ c ∧ c ≤ 'Z' then Char.ofNat (c.toNat + 32) else c

/-- Does `l` start with `pat` (Rust `str::starts_with`)? -/
def startsWithList (l pat : List Char) : Bool :=
  decide (l.take pat.length = pat)

/-- Does `l` end with `pat` (Rust `str::ends_with`)? -/
def endsWithList (l pat : List Char) : Bool :=
  decide (l.drop (l.length - pat.length) = pat ∧ pat.length ≤ l.length)

/-- Rust `str::find` for a literal pattern: index of the first occurrence
of `pat` in `l` (character index; all patterns used by the workers are
ASCII, so this agrees with Rust's byte index up to the character/byte
correspondence used consistently in this embedding). -/
def findSub : List Char → List Char → Option Nat
  | [], pat => if pat = [] then some 0 else none
  | c :: rest, pat =>
    if startsWithList (c :: rest) pat then some 0
    else (findSub rest pat).map (· + 1)

/-- Rust `str::rfind` for a literal pattern: index of the start of the last
occurrence of `pat` in `l`. -/
def rfindSub (l pat : List Char) : Option Nat :=
  (findSub l.reverse pat.reverse).map (fun i => l.length - pat.length - i)

/-- Does `l` contain `pat` (Rust `str::contains`)? -/
def containsSub (l pat : List Char) : Bool :=
  (findSub l pat).isSome

/-- reqwest `StatusCode::is_success`: HTTP status in the 2xx range. -/
def isSuccessStatus (status : Nat) : Bool :=
  decide (200 ≤ status ∧ status ≤ 299)

/-! ## Pipeline status machine

The five worker binaries under `src/` each poll the `news` table for a fixed
set of statuses and commit a new status per processed item.  `inputStatuses`
records the exact `WHERE` clauses of the claim queries
(`fetch_new_items`, `fetch_downloaded_items`, `fetch_items_to_rewrite`,
`fetch_items_to_illustrate`, `fetch_translated_items`); `advance` records
the status each worker's run loop writes with `update_status` for each
processing outcome (`none` = the worker leaves the row untouched). -/

namespace Pipeline

inductive Stage where
  | downloader
  | scraper
  | rewriter
  | illustrator
  | publisher
deriving DecidableEq

/-- The status values each worker's claim query polls for. -/
def inputStatuses : Stage → List String
  | .downloader => ["new"]
  | .scraper => ["downloaded"]
  | .rewriter => ["translated", "rewriter_retry"]
  | .illustrator => ["rewriter", "illustrator_retry"]
  | .publisher => ["translated"]

/-- Classified outcome of processing one item (spec ProviderOutcome plus the
non-AI stages' success/failure). -/
inductive Outcome where
  | success
  | softFailure
  | hardFailure
deriving DecidableEq

/-- The status committed by each worker's run loop for a claimed item with
current status `cur` and outcome `o` (`none` = no `update_status` call):
`run_downloader`, `run_scraper`, `run_rewriter`, `run_illustrator`,
`run_publisher`. -/
def advance : Stage → String → Outcome → Option String
  | .downloader, _, .success => some "downloaded"
  | .downloader, _, _ => none
  | .scraper, _, .success => some "scraper"
  | .scraper, _, _ => none
  | .rewriter, _, .success => some "rewriter"
  | .rewriter, cur, _ =>
    some (if cur = "rewriter_retry" then "rewriter_error" else "rewriter_retry")
  | .illustrator, _, .success => some "illustrator"
  | .illustrator, cur, _ =>
    some (if cur = "illustrator_retry" then "illustrator_error" else "illustrator_retry")
  | .publisher, _, .success => some "published"
  | .publisher, _, _ => some "publish_error"

/-- The directed status graph of spec §4.1, transcribed from the spec's words:
`new → downloaded → scraped → translated → {rewriter | rewriter_retry →
rewriter_error} → {illustrator | illustrator_retry → illustrator_error} →
{published | publish_error}` (branch statuses read generously, including the
retry loops back to the stage success status). -/
def specStatusGraphEdges : List (String × String) :=
  [("new", "downloaded"), ("downloaded", "scraped"), ("scraped", "translated"),
   ("translated", "rewriter"), ("translated", "rewriter_retry"),
   ("rewriter_retry", "rewriter"), ("rewriter_retry", "rewriter_error"),
   ("rewriter", "illustrator"), ("rewriter", "illustrator_retry"),
   ("illustrator_retry", "illustrator"), ("illustrator_retry", "illustrator_error"),
   ("illustrator", "published"), ("illustrator", "publish_error")]

/-- The transitions the workers under `src/` actually commit, read off
`advance` restricted to each worker's input statuses. -/
def codeStatusGraphEdges : List (String × String) :=
  [("new", "downloaded"), ("downloaded", "scraper"),
   ("translated", "rewriter"), ("translated", "rewriter_retry"),
   ("rewriter_retry", "rewriter"), ("rewriter_retry", "rewriter_error"),
   ("rewriter", "illustrator"), ("rewriter", "illustrator_retry"),
   ("illustrator_retry", "illustrator"), ("illustrator_retry", "illustrator_error"),
   ("translated", "published"), ("translated", "publish_error")]

end Pipeline

/-! ## Publisher: markup converter (`src/publisher/src/main.rs`)

`transform_html` parses the stage input with the external `scraper` crate,
selects the `body` element and walks it.  The parse step is the external
collaborator; the embedding starts from the parsed DOM tree. -/

namespace Publisher

mutual
/-- A parsed HTML node as produced by the `scraper` crate: a text node or an
element with tag name, attributes and a list of children. -/
inductive HNode where
  | text : String → HNode
  | elem : String → List (String × String) → HNodes → HNode
/-- A child list of parsed HTML nodes, spelled as its own inductive so the
DOM walk below is a plain structural recursion. -/
inductive HNodes where
  | nil : HNodes
  | cons : HNode → HNodes → HNodes
end

/-- Lookup of an attribute value (`ElementRef::value().attr`). -/
def attrOf (attrs : List (String × String)) (name : String) : Option String :=
  match attrs with
  | [] => none
  | (k, v) :: rest => if k = name then some v else attrOf rest name

/-- Body of the `Text` arm of `process_element_children`: trim the text and
append it, inserting a single separating space unless the accumulated result
is empty or already ends with a space or a newline. -/
def pushText (result : List Char) (t : String) : List Char :=
  let tt := rustTrim t.data
  if tt = [] then result
  else if result ≠ [] ∧ endsWithList result [' '] = false ∧
      endsWithList result ['\n'] = false then
    result ++ [' '] ++ tt
  else
    result ++ tt

/-- `process_element` / `process_element_children` fused into one recursion
over child lists (the Rust pair of mutually recursive functions, with the
`process_element` body inlined at the `Node::Element` arm). -/
def process_children (result : List Char) : HNodes → List Char
  | .nil => result
  | .cons (.text t) rest => process_children (pushText result t) rest
  | .cons (.elem tag attrs cs) rest =>
    let r :=
      if tag = "h1" ∨ tag = "h2" ∨ tag = "h3" ∨ tag = "h4" ∨ tag = "h5" ∨ tag = "h6" then
        (process_children (result ++ "<b>".data) cs) ++ "</b>\n\n".data
      else if tag = "p" then
        (process_children result cs) ++ "\n\n".data
      else if tag = "strong" ∨ tag = "b" then
        (process_children (result ++ "<b>".data) cs) ++ "</b>".data
      else if tag = "a" then
        match attrOf attrs "href" with
        | some href =>
          (process_children (result ++ "<a href=\"".data ++ href.data ++ "\">".data) cs)
            ++ "</a>".data
        | none => process_children result cs
      else if tag = "br" then
        result ++ ['\n']
      else if tag = "html" ∨ tag = "head" ∨ tag = "meta" ∨ tag = "title" ∨
          tag = "style" ∨ tag = "script" then
        result
      else
        let r1 := process_children result cs
        if (["span", "a", "strong", "b", "i", "em"].contains tag) = false ∧
            endsWithList r1 "\n\n".data = false ∧ r1 ≠ [] then
          r1 ++ "\n\n".data
        else r1
    process_children r rest

/-- `process_element` applied to a single element (the call
`process_element(&mut result, &body)` in `transform_html`). -/
def process_one (result : List Char) (n : HNode) : List Char :=
  process_children result (.cons n .nil)

/-- One left-to-right pass of Rust `str::replace("\n\n\n", "\n\n")`:
at each position, a match is replaced and the scan continues after it;
otherwise the character is kept and the scan advances by one. -/
def collapse_newlines : List Char → List Char
  | [] => []
  | [c] => [c]
  | [c, d] => [c, d]
  | c :: d :: e :: rest =>
    if c = '\n' ∧ d = '\n' ∧ e = '\n' then '\n' :: '\n' :: collapse_newlines rest
    else c :: collapse_newlines (d :: e :: rest)

/-- One left-to-right pass of Rust `str::replace("  ", " ")`. -/
def collapse_spaces : List Char → List Char
  | [] => []
  | [c] => [c]
  | c :: d :: rest =>
    if c = ' ' ∧ d = ' ' then ' ' :: collapse_spaces rest
    else c :: collapse_spaces (d :: rest)

/-- `transform_html` from the parsed `body` element onwards: walk the DOM,
then clean up with the two `replace` passes. -/
def transform_html (body : HNode) : String :=
  String.mk (collapse_spaces (collapse_newlines (process_one [] body)))

end Publisher

namespace Publisher

/-- Telegram Bot API `sendMessage` text limit (UTF-16 code units after
entities parsing). -/
def TELEGRAM_SENDMESSAGE_TEXT_LIMIT_UTF16 : Nat := 4096

/-- Telegraph `createPage` content limit in bytes (`64 * 1024`). -/
def TELEGRAPH_CREATEPAGE_CONTENT_LIMIT_BYTES : Nat := 64 * 1024

/-- The character loop of `strip_html_tags_to_text`, with its three pieces of
state: `inTag`, `lastWasSpace` and `tagBuf` (Rust `to_lowercase` is modelled
ASCII-wise; every tag name the guard inspects is ASCII). -/
def strip_go : List Char → Bool → Bool → List Char → List Char
  | [], _, _, _ => []
  | ch :: rest, inTag, lastWasSpace, tagBuf =>
    if inTag then
      if ch = '>' then
        let tag := (rustTrim tagBuf).map asciiLower
        if (startsWithList tag "br".data ∨ startsWithList tag "/p".data ∨
            startsWithList tag "p".data) ∧ lastWasSpace = false then
          ' ' :: strip_go rest false true []
        else
          strip_go rest false lastWasSpace []
      else
        strip_go rest true lastWasSpace (tagBuf ++ [ch])
    else if ch = '<' then
      if lastWasSpace = false then ' ' :: strip_go rest true true tagBuf
      else strip_go rest true lastWasSpace tagBuf
    else if rustIsWhitespace ch then
      if lastWasSpace = false then ' ' :: strip_go rest false true tagBuf
      else strip_go rest false lastWasSpace tagBuf
    else
      ch :: strip_go rest false false tagBuf

/-- `strip_html_tags_to_text`: drop tags (turning them into single spaces,
with an extra separating space after `br`/`p`-ish tags), collapse
whitespace, then trim. -/
def strip_html_tags_to_text (html : String) : String :=
  String.mk (rustTrim (strip_go html.data false false []))

/-- `telegram_text_len_utf16_after_entities_guess`: strip tags, then count
UTF-16 code units. -/
def telegram_text_len_utf16_after_entities_guess (html_text : String) : Nat :=
  utf16Count (strip_html_tags_to_text html_text).data

/-- The branch condition in `send_to_telegram` that routes a payload to the
telegra.ph long-form fallback instead of sending it directly. -/
def message_exceeds_telegram_limit (content : String) : Bool :=
  decide (TELEGRAM_SENDMESSAGE_TEXT_LIMIT_UTF16 <
    telegram_text_len_utf16_after_entities_guess content)

/-- The character loop of `truncate_to_max_bytes_utf8`: keep pushing whole
characters while the accumulated byte length plus the next character's UTF-8
size stays within `budget`; stop at the first character that does not fit. -/
def take_utf8 : List Char → Nat → Nat → List Char
  | [], _, _ => []
  | c :: rest, outLen, budget =>
    if budget < outLen + c.utf8Size then []
    else c :: take_utf8 rest (outLen + c.utf8Size) budget

/-- `truncate_to_max_bytes_utf8`: within budget, return the string unchanged;
otherwise cut along character boundaries leaving room for the
`"\n\n[truncated]"` suffix, and append that suffix. -/
def truncate_to_max_bytes_utf8 (s : String) (max_bytes : Nat) : String :=
  if rustLen s ≤ max_bytes then s
  else
    let suffix := "\n\n[truncated]"
    let budget := max_bytes - rustLen suffix
    String.mk (take_utf8 s.data 0 budget ++ suffix.data)

end Publisher

/-! ## Rewriter: AI provider gateway (`src/rewriter/src/main.rs`) -/

namespace Rewriter

/-- The rewriter's `ApiError` (`thiserror` enum); the reqwest/anyhow causes
carried by `RequestError` and `ParseError` are external values and are
dropped in the embedding. -/
inductive ApiError where
  | RequestError
  | ParseError
  | ApiReturnedError (status : Nat) (content : String) (finish_reason : Option String)
  | EmptyChoices
deriving DecidableEq

/-- Deserialized `ResponseMessage`. -/
structure ResponseMessage where
  role : Option String
  content : String
deriving DecidableEq

/-- Deserialized `Choice`. -/
structure Choice where
  index : Option Nat
  message : ResponseMessage
  finish_reason : Option String
deriving DecidableEq

/-- Deserialized `ChatResponse`. -/
structure ChatResponse where
  id : Option String
  choices : List Choice
deriving DecidableEq

/-- `looks_like_html`: case-insensitive containment of matching document
tags (`to_ascii_lowercase` then `contains`). -/
def looks_like_html (content : String) : Bool :=
  let lower := content.data.map asciiLower
  (containsSub lower "<html".data ∧ containsSub lower "</html>".data) ∨
  (containsSub lower "<body".data ∧ containsSub lower "</body>".data) ∨
  (containsSub lower "<!doctype html".data ∧ containsSub lower "</html>".data)

/-- `extract_html_document_block`: substring from the first `<html` /
`<!DOCTYPE` / `<!doctype` marker to the end of the last `</html>`, trimmed. -/
def extract_html_document_block (s : String) : Option String :=
  let l := s.data
  let startO :=
    match findSub l "<html".data with
    | some i => some i
    | none =>
      match findSub l "<!DOCTYPE".data with
      | some i => some i
      | none => findSub l "<!doctype".data
  match startO with
  | none => none
  | some start =>
    match rfindSub l "</html>".data with
    | none => none
    | some e =>
      let endIdx := e + "</html>".data.length
      if endIdx ≤ start then none
      else some (String.mk (rustTrim ((l.drop start).take (endIdx - start))))

/-- `extract_fenced_block`: content of the first fence opened by
`fence_start`, skipping one newline after the opening fence, up to the next
` ``` `, trimmed. -/
def extract_fenced_block (s : String) (fence_start : String) : Option String :=
  match findSub s.data fence_start.data with
  | none => none
  | some start_pos =>
    let after := s.data.drop (start_pos + fence_start.data.length)
    let after :=
      if startsWithList after ['\r', '\n'] then after.drop 2
      else if startsWithList after ['\n'] then after.drop 1
      else after
    match findSub after "```".data with
    | none => none
    | some end_pos => some (String.mk (rustTrim (after.take end_pos)))

/-- `extract_any_fenced_block`: content of the first ` ``` ` fence of any
kind, skipping a language-id line if present, trimmed. -/
def extract_any_fenced_block (s : String) : Option String :=
  match findSub s.data "```".data with
  | none => none
  | some start_pos =>
    let after := s.data.drop (start_pos + 3)
    let after :=
      match findSub after ['\n'] with
      | some nl => after.drop (nl + 1)
      | none => after
    match findSub after "```".data with
    | none => none
    | some end_pos => some (String.mk (rustTrim (after.take end_pos)))

/-- `post_process_html_response`: the ordered chain of extractors — document
block, then ` ```html ` fence, then any fence, then the raw trimmed
response. -/
def post_process_html_response (content : String) : String :=
  let content := String.mk (rustTrim content.data)
  match extract_html_document_block content with
  | some extracted => extracted
  | none =>
    match extract_fenced_block content "```html" with
    | some extracted => extracted
    | none =>
      match extract_any_fenced_block content with
      | some extracted => extracted
      | none => content

/-- `parse_chat_response` after the external steps (HTTP transport and JSON
deserialization): `status` is the HTTP status; `json` is the parse result of
the body (`none` = malformed JSON). -/
def parse_chat_response (status : Nat) (json : Option ChatResponse) :
    Except ApiError (String × Option String) :=
  match json with
  | none => .error .ParseError
  | some response_data =>
    match response_data.choices with
    | [] => .error .EmptyChoices
    | choice :: _ =>
      let rewritten_content := choice.message.content
      let finish_reason := choice.finish_reason
      if isSuccessStatus status = false then
        let cleaned_content := post_process_html_response rewritten_content
        if looks_like_html cleaned_content = false then
          .error (.ApiReturnedError status cleaned_content (some "error"))
        else
          .error (.ApiReturnedError status cleaned_content finish_reason)
      else if finish_reason = some "error" ∨ finish_reason = some "length" then
        .error (.ApiReturnedError status
          (post_process_html_response rewritten_content) finish_reason)
      else
        let cleaned_content := post_process_html_response rewritten_content
        if looks_like_html cleaned_content = false then
          .error (.ApiReturnedError status cleaned_content (some "error"))
        else
          .ok (cleaned_content, finish_reason)

/-- The artifact-writing and result-mapping tail of `process_news_item`,
from the `rewrite_content` result onwards: first component is the content
written to `rewriter_{id}.html` (`none` = nothing written), second is the
function's return value. -/
def process_news_item (rewrite_result : Except ApiError (String × Option String)) :
    Option String × Except ApiError (Option String) :=
  match rewrite_result with
  | .ok (content, finish_reason) => (some content, .ok finish_reason)
  | .error (.ApiReturnedError _ content finish_reason) => (some content, .ok finish_reason)
  | .error e => (none, .error e)

/-- The status-decision match in `run_rewriter` (lines 213-258): the next
status committed for an item whose claim-time status is `current_status`,
given the `process_news_item` result. -/
def next_status (current_status : String)
    (r : Except ApiError (Option String)) : String :=
  match r with
  | .ok finish_reason_opt =>
    if finish_reason_opt = some "error" ∨ finish_reason_opt = some "length" then
      if current_status = "rewriter_retry" then "rewriter_error" else "rewriter_retry"
    else "rewriter"
  | .error _ =>
    if current_status = "rewriter_retry" then "rewriter_error" else "rewriter_retry"

/-- A `process_news_item` result counting as a failed attempt in
`run_rewriter`: a soft failure (`finish_reason` of `error`/`length`) or a
hard error. -/
def is_failed_attempt (r : Except ApiError (Option String)) : Bool :=
  match r with
  | .ok finish_reason_opt =>
    decide (finish_reason_opt = some "error" ∨ finish_reason_opt = some "length")
  | .error _ => true

end Rewriter

/-! ## Illustrator: image-generation gateway (`src/illustrator/src/main.rs`) -/

namespace Illustrator

/-- The illustrator's `ApiError` (`thiserror` enum); external error causes
are dropped in the embedding. -/
inductive ApiError where
  | RequestError
  | ParseError
  | ApiReturnedError (status : Nat) (content : String) (finish_reason : Option String)
  | EmptyImageData
deriving DecidableEq

/-- Deserialized Gemini `inlineData` part. -/
structure GeminiInlineData where
  mime_type : Option String
  data : String
deriving DecidableEq

/-- Deserialized Gemini response part. -/
structure GeminiResponsePart where
  text : Option String
  inline_data : Option GeminiInlineData
deriving DecidableEq

/-- Deserialized Gemini candidate content. -/
structure GeminiCandidateContent where
  parts : List GeminiResponsePart
deriving DecidableEq

/-- Deserialized Gemini candidate. -/
structure GeminiCandidate where
  content : GeminiCandidateContent
deriving DecidableEq

/-- Deserialized Gemini `generateContent` response. -/
structure GeminiGenerateContentResponse where
  candidates : List GeminiCandidate
deriving DecidableEq

/-- Deserialized OpenRouter image URL holder. -/
structure ResponseImageUrl where
  url : String
deriving DecidableEq

/-- Deserialized OpenRouter response image. -/
structure ResponseImage where
  image_type : Option String
  image_url : Option ResponseImageUrl
deriving DecidableEq

/-- Deserialized OpenRouter response message. -/
structure ResponseMessage where
  role : Option String
  content : Option String
  images : List ResponseImage
deriving DecidableEq

/-- Deserialized OpenRouter choice. -/
structure Choice where
  message : ResponseMessage
deriving DecidableEq

/-- Deserialized OpenRouter chat response. -/
structure ChatResponse where
  choices : List Choice
deriving DecidableEq

/-- The 8-byte PNG signature. -/
def PNG_SIGNATURE : List Nat := [0x89, 0x50, 0x4E, 0x47, 0x0D, 0x0A, 0x1A, 0x0A]

/-- `looks_like_png`: the byte buffer is at least 8 bytes long and starts
with the PNG signature. -/
def looks_like_png (bytes : List Nat) : Bool :=
  decide (PNG_SIGNATURE.length ≤ bytes.length ∧
    bytes.take PNG_SIGNATURE.length = PNG_SIGNATURE)

/-- `extract_base64_from_data_url`: for a `data:image/...` URL, the substring
after the `;base64,` marker (or, permissively, after a `,base64,` marker);
the marker search is done on the ASCII-lowercased URL, the payload is sliced
from the original. -/
def extract_base64_from_data_url (url : String) : Option String :=
  let lower := url.data.map asciiLower
  if startsWithList lower "data:image/".data = false then none
  else
    match findSub lower ";base64,".data with
    | some idx => some (String.mk (url.data.drop (idx + ";base64,".data.length)))
    | none =>
      match findSub lower ",base64,".data with
      | some idx => some (String.mk (url.data.drop (idx + ",base64,".data.length)))
      | none => none

/-- `parse_gemini_image_from_generate_content_response` after the external
steps: `decodeB64` is the external base64 decoder (`none` = decode error),
`status` the HTTP status, `json` the body parse result (`none` = malformed
JSON), `response_text` the raw body. -/
def parse_gemini_image_from_generate_content_response
    (decodeB64 : String → Option (List Nat)) (status : Nat)
    (json : Option GeminiGenerateContentResponse) (response_text : String) :
    Except ApiError (List Nat × Option String) :=
  if isSuccessStatus status = false then
    .error (.ApiReturnedError status response_text (some "error"))
  else
    match json with
    | none => .error .ParseError
    | some response_data =>
      match response_data.candidates.head? with
      | none => .error .EmptyImageData
      | some candidate =>
        match candidate.content.parts.find? (fun p => p.inline_data.isSome) with
        | none => .error .EmptyImageData
        | some image_part =>
          match image_part.inline_data with
          | none => .error .EmptyImageData
          | some inline =>
            match decodeB64 inline.data with
            | none => .error .ParseError
            | some image_bytes =>
              if looks_like_png image_bytes = false then
                .error (.ApiReturnedError status
                  "Image bytes are not a valid PNG" (some "error"))
              else
                .ok (image_bytes, none)

/-- The image-byte acquisition step of
`parse_openrouter_image_from_chat_response`: decode the base64 data URL, or
download from a plain URL (`download` is the external HTTP client; `none` =
transport error). -/
def openrouter_image_bytes (decodeB64 : String → Option (List Nat))
    (download : String → Option (List Nat)) (url : String) :
    Except ApiError (List Nat) :=
  match extract_base64_from_data_url url with
  | some b64 =>
    match decodeB64 b64 with
    | some bs => .ok bs
    | none => .error .ParseError
  | none =>
    match download url with
    | some bs => .ok bs
    | none => .error .RequestError

/-- `parse_openrouter_image_from_chat_response` after the external steps. -/
def parse_openrouter_image_from_chat_response
    (decodeB64 : String → Option (List Nat))
    (download : String → Option (List Nat)) (status : Nat)
    (json : Option ChatResponse) (response_text : String) :
    Except ApiError (List Nat × Option String) :=
  if isSuccessStatus status = false then
    .error (.ApiReturnedError status response_text (some "error"))
  else
    match json with
    | none => .error .ParseError
    | some response_data =>
      match response_data.choices.head? with
      | none => .error .EmptyImageData
      | some choice =>
        match choice.message.images.head? with
        | none => .error .EmptyImageData
        | some image =>
          match image.image_url with
          | none => .error .EmptyImageData
          | some u =>
            match openrouter_image_bytes decodeB64 download u.url with
            | .error e => .error e
            | .ok image_bytes =>
              if looks_like_png image_bytes = false then
                .error (.ApiReturnedError status
                  "Image bytes are not a valid PNG" (some "error"))
              else
                .ok (image_bytes, none)

/-- The status-decision match in `run_illustrator` (lines 278-323): the next
status committed for an item whose claim-time status is `current_status`,
given the `process_news_item` result. -/
def next_status (current_status : String)
    (r : Except ApiError (Option String)) : String :=
  match r with
  | .ok finish_reason_opt =>
    if finish_reason_opt = some "error" ∨ finish_reason_opt = some "length" then
      if current_status = "illustrator_retry" then "illustrator_error"
      else "illustrator_retry"
    else "illustrator"
  | .error _ =>
    if current_status = "illustrator_retry" then "illustrator_error"
    else "illustrator_retry"

/-- A `process_news_item` result counting as a failed attempt in
`run_illustrator`. -/
def is_failed_attempt (r : Except ApiError (Option String)) : Bool :=
  match r with
  | .ok finish_reason_opt =>
    decide (finish_reason_opt = some "error" ∨ finish_reason_opt = some "length")
  | .error _ => true

end Illustrator

/-! ## Claim theorems -/

/-- C1 counterexample: the claim fails — the status string `translated` is
polled by two distinct stage workers: `fetch_items_to_rewrite` (rewriter)
and `fetch_translated_items` (publisher). -/
theorem c1_counterexample :
    "translated" ∈ Pipeline.inputStatuses Pipeline.Stage.rewriter ∧
    "translated" ∈ Pipeline.inputStatuses Pipeline.Stage.publisher ∧
    Pipeline.Stage.rewriter ≠ Pipeline.Stage.publisher := by
  decide

/-- C1 (amended): every pair of distinct stage workers has disjoint claimed
status sets, except the rewriter/publisher pair, whose overlap is exactly
the status `translated`. -/
theorem c1_amended_disjointness (s1 s2 : Pipeline.Stage) (h : s1 ≠ s2) :
    ((s1 = Pipeline.Stage.rewriter ∧ s2 = Pipeline.Stage.publisher) ∨
      (s1 = Pipeline.Stage.publisher ∧ s2 = Pipeline.Stage.rewriter) ∨
      ∀ st ∈ Pipeline.inputStatuses s1, st ∉ Pipeline.inputStatuses s2) ∧
    (∀ st ∈ Pipeline.inputStatuses Pipeline.Stage.rewriter,
      st ∈ Pipeline.inputStatuses Pipeline.Stage.publisher → st = "translated") := by
  cases s1 <;> cases s2 <;> revert h <;> decide

/-- C1 witness: the amended disjointness instantiated at the
downloader/scraper pair. -/
theorem c1_amended_disjointness_witness :
    ((Pipeline.Stage.downloader = Pipeline.Stage.rewriter ∧
        Pipeline.Stage.scraper = Pipeline.Stage.publisher) ∨
      (Pipeline.Stage.downloader = Pipeline.Stage.publisher ∧
        Pipeline.Stage.scraper = Pipeline.Stage.rewriter) ∨
      ∀ st ∈ Pipeline.inputStatuses Pipeline.Stage.downloader,
        st ∉ Pipeline.inputStatuses Pipeline.Stage.scraper) ∧
    (∀ st ∈ Pipeline.inputStatuses Pipeline.Stage.rewriter,
      st ∈ Pipeline.inputStatuses Pipeline.Stage.publisher → st = "translated") :=
  c1_amended_disjointness Pipeline.Stage.downloader Pipeline.Stage.scraper (by decide)

/-- C2 counterexample: the claim fails — the scraper commits the transition
`downloaded → scraper`, whose target is not even a node of the §4.1 graph,
and the publisher commits `translated → published`, skipping the rewriter
and illustrator stages. -/
theorem c2_counterexample :
    Pipeline.advance Pipeline.Stage.scraper "downloaded" Pipeline.Outcome.success =
      some "scraper" ∧
    "downloaded" ∈ Pipeline.inputStatuses Pipeline.Stage.scraper ∧
    ("downloaded", "scraper") ∉ Pipeline.specStatusGraphEdges ∧
    Pipeline.advance Pipeline.Stage.publisher "translated" Pipeline.Outcome.success =
      some "published" ∧
    "translated" ∈ Pipeline.inputStatuses Pipeline.Stage.publisher ∧
    ("translated", "published") ∉ Pipeline.specStatusGraphEdges := by
  decide

/-- C2 (amended): every status update committed by a worker for a claimed
item follows one forward edge of the graph the code actually implements,
which differs from §4.1 in that the scraper's success status is `scraper`
(no worker under `src/` commits `scraped` or `translated`) and the publisher
advances items directly from `translated` to `published`/`publish_error`. -/
theorem c2_amended_transitions (st : Pipeline.Stage) (cur : String)
    (o : Pipeline.Outcome) (next : String)
    (hcur : cur ∈ Pipeline.inputStatuses st)
    (hadv : Pipeline.advance st cur o = some next) :
    (cur, next) ∈ Pipeline.codeStatusGraphEdges := by
  cases st <;> cases o <;>
    simp only [Pipeline.inputStatuses, List.mem_cons, List.not_mem_nil, or_false] at hcur <;>
    (rcases hcur with rfl | rfl) <;> simp [Pipeline.advance] at hadv <;>
      subst hadv <;> decide

/-- C2 witness: the amended transition theorem instantiated at the
downloader's success transition. -/
theorem c2_amended_transitions_witness :
    ("new", "downloaded") ∈ Pipeline.codeStatusGraphEdges :=
  c2_amended_transitions Pipeline.Stage.downloader "new" Pipeline.Outcome.success
    "downloaded" (by decide) (by decide)

/-- C3: for both AI-driven stages, a soft or hard failure moves the item to
the stage's error status when its claim-time status was already the retry
status, and to the retry status otherwise; a second failing claimed attempt
always lands on the terminal error status, which no stage worker polls. -/
theorem c3_bounded_retry (cur cur2 : String)
    (r : Except Rewriter.ApiError (Option String))
    (r2 : Except Illustrator.ApiError (Option String))
    (hr : Rewriter.is_failed_attempt r = true)
    (hr2 : Illustrator.is_failed_attempt r2 = true) :
    (Rewriter.next_status cur r =
      (if cur = "rewriter_retry" then "rewriter_error" else "rewriter_retry")) ∧
    (Illustrator.next_status cur2 r2 =
      (if cur2 = "illustrator_retry" then "illustrator_error" else "illustrator_retry")) ∧
    (cur ∈ Pipeline.inputStatuses Pipeline.Stage.rewriter →
      Rewriter.next_status cur r = "rewriter_error" ∨
      (Rewriter.next_status cur r ∈ Pipeline.inputStatuses Pipeline.Stage.rewriter ∧
        ∀ r', Rewriter.is_failed_attempt r' = true →
          Rewriter.next_status (Rewriter.next_status cur r) r' = "rewriter_error")) ∧
    (cur2 ∈ Pipeline.inputStatuses Pipeline.Stage.illustrator →
      Illustrator.next_status cur2 r2 = "illustrator_error" ∨
      (Illustrator.next_status cur2 r2 ∈ Pipeline.inputStatuses Pipeline.Stage.illustrator ∧
        ∀ r', Illustrator.is_failed_attempt r' = true →
          Illustrator.next_status (Illustrator.next_status cur2 r2) r' = "illustrator_error")) ∧
    (∀ s : Pipeline.Stage, "rewriter_error" ∉ Pipeline.inputStatuses s ∧
      "illustrator_error" ∉ Pipeline.inputStatuses s) := by
  have key1 : Rewriter.next_status cur r =
      (if cur = "rewriter_retry" then "rewriter_error" else "rewriter_retry") := by
    cases r with
    | error e => rfl
    | ok fr =>
      simp only [Rewriter.is_failed_attempt, decide_eq_true_eq] at hr
      simp [Rewriter.next_status, hr]
  have key2 : Illustrator.next_status cur2 r2 =
      (if cur2 = "illustrator_retry" then "illustrator_error" else "illustrator_retry") := by
    cases r2 with
    | error e => rfl
    | ok fr =>
      simp only [Illustrator.is_failed_attempt, decide_eq_true_eq] at hr2
      simp [Illustrator.next_status, hr2]
  have keyR : ∀ r' : Except Rewriter.ApiError (Option String),
      Rewriter.is_failed_attempt r' = true →
      Rewriter.next_status "rewriter_retry" r' = "rewriter_error" := by
    intro r' hfail
    cases r' with
    | error e => rfl
    | ok fr =>
      simp only [Rewriter.is_failed_attempt, decide_eq_true_eq] at hfail
      simp [Rewriter.next_status, hfail]
  have keyI : ∀ r' : Except Illustrator.ApiError (Option String),
      Illustrator.is_failed_attempt r' = true →
      Illustrator.next_status "illustrator_retry" r' = "illustrator_error" := by
    intro r' hfail
    cases r' with
    | error e => rfl
    | ok fr =>
      simp only [Illustrator.is_failed_attempt, decide_eq_true_eq] at hfail
      simp [Illustrator.next_status, hfail]
  refine ⟨key1, key2, ?_, ?_, ?_⟩
  · intro hmem
    rcases (by simpa [Pipeline.inputStatuses] using hmem :
        cur = "translated" ∨ cur = "rewriter_retry") with rfl | rfl
    · right
      rw [key1]
      exact ⟨by decide, fun r' hfail => keyR r' hfail⟩
    · left
      rw [key1]
      decide
  · intro hmem
    rcases (by simpa [Pipeline.inputStatuses] using hmem :
        cur2 = "rewriter" ∨ cur2 = "illustrator_retry") with rfl | rfl
    · right
      rw [key2]
      exact ⟨by decide, fun r' hfail => keyI r' hfail⟩
    · left
      rw [key2]
      decide
  · intro s
    cases s <;> exact ⟨by decide, by decide⟩

/-- C3 witness: the bounded-retry policy instantiated at a hard failure for
an item in status `translated` (rewriter) and `rewriter` (illustrator). -/
theorem c3_bounded_retry_witness :
    (Rewriter.next_status "translated" (Except.error Rewriter.ApiError.RequestError) =
      (if "translated" = "rewriter_retry" then "rewriter_error" else "rewriter_retry")) ∧
    (Illustrator.next_status "rewriter" (Except.error Illustrator.ApiError.RequestError) =
      (if "rewriter" = "illustrator_retry" then "illustrator_error" else "illustrator_retry")) ∧
    ("translated" ∈ Pipeline.inputStatuses Pipeline.Stage.rewriter →
      Rewriter.next_status "translated" (Except.error Rewriter.ApiError.RequestError) =
          "rewriter_error" ∨
      (Rewriter.next_status "translated" (Except.error Rewriter.ApiError.RequestError) ∈
          Pipeline.inputStatuses Pipeline.Stage.rewriter ∧
        ∀ r', Rewriter.is_failed_attempt r' = true →
          Rewriter.next_status
            (Rewriter.next_status "translated" (Except.error Rewriter.ApiError.RequestError))
            r' = "rewriter_error")) ∧
    ("rewriter" ∈ Pipeline.inputStatuses Pipeline.Stage.illustrator →
      Illustrator.next_status "rewriter" (Except.error Illustrator.ApiError.RequestError) =
          "illustrator_error" ∨
      (Illustrator.next_status "rewriter" (Except.error Illustrator.ApiError.RequestError) ∈
          Pipeline.inputStatuses Pipeline.Stage.illustrator ∧
        ∀ r', Illustrator.is_failed_attempt r' = true →
          Illustrator.next_status
            (Illustrator.next_status "rewriter"
              (Except.error Illustrator.ApiError.RequestError))
            r' = "illustrator_error")) ∧
    (∀ s : Pipeline.Stage, "rewriter_error" ∉ Pipeline.inputStatuses s ∧
      "illustrator_error" ∉ Pipeline.inputStatuses s) :=
  c3_bounded_retry "translated" "rewriter"
    (Except.error Rewriter.ApiError.RequestError)
    (Except.error Illustrator.ApiError.RequestError) rfl rfl

/-- C10: a string already within the byte budget is returned unchanged by
`truncate_to_max_bytes_utf8`. -/
theorem c10_identity_within_budget (s : String) (b : Nat) (h : rustLen s ≤ b) :
    Publisher.truncate_to_max_bytes_utf8 s b = s := by
  simp [Publisher.truncate_to_max_bytes_utf8, h]

/-- C10 witness: the identity case at a concrete short string. -/
theorem c10_identity_within_budget_witness :
    Publisher.truncate_to_max_bytes_utf8 "hi" 10 = "hi" :=
  c10_identity_within_budget "hi" 10 (by decide)

/-- Helper: `take_utf8` never exceeds the byte budget (counting from `used`
bytes already emitted). -/
lemma take_utf8_bytes_le (l : List Char) (used budget : Nat) (h : used ≤ budget) :
    used + ((Publisher.take_utf8 l used budget).map Char.utf8Size).sum ≤ budget := by
  induction l generalizing used with
  | nil => simpa [Publisher.take_utf8]
  | cons c rest ih =>
    by_cases hc : budget < used + c.utf8Size
    · simpa [Publisher.take_utf8, hc]
    · have step := ih (used + c.utf8Size) (by omega)
      simp only [Publisher.take_utf8, hc, if_false, List.map_cons, List.sum_cons]
      omega

/-- Helper: `take_utf8` returns a character-boundary prefix of its input. -/
lemma take_utf8_as_take (l : List Char) (used budget : Nat) :
    ∃ k, Publisher.take_utf8 l used budget = l.take k := by
  induction l generalizing used with
  | nil => exact ⟨0, rfl⟩
  | cons c rest ih =>
    by_cases hc : budget < used + c.utf8Size
    · exact ⟨0, by simp [Publisher.take_utf8, hc]⟩
    · obtain ⟨k, hk⟩ := ih (used + c.utf8Size)
      exact ⟨k + 1, by simp [Publisher.take_utf8, hc, hk]⟩

/-- C7: every over-budget string is truncated to at most the 65,536-byte
Telegraph budget, the result ends with the `"\n\n[truncated]"` marker, and
the part before the marker is a character-boundary prefix of the input (so
no multi-byte character is cut). -/
theorem c7_truncation (s : String)
    (h : Publisher.TELEGRAPH_CREATEPAGE_CONTENT_LIMIT_BYTES < rustLen s) :
    rustLen (Publisher.truncate_to_max_bytes_utf8 s
        Publisher.TELEGRAPH_CREATEPAGE_CONTENT_LIMIT_BYTES) ≤
      Publisher.TELEGRAPH_CREATEPAGE_CONTENT_LIMIT_BYTES ∧
    ∃ k, (Publisher.truncate_to_max_bytes_utf8 s
        Publisher.TELEGRAPH_CREATEPAGE_CONTENT_LIMIT_BYTES).data =
      s.data.take k ++ "\n\n[truncated]".data := by
  have hne : ¬ rustLen s ≤ Publisher.TELEGRAPH_CREATEPAGE_CONTENT_LIMIT_BYTES := by omega
  have hres : Publisher.truncate_to_max_bytes_utf8 s
      Publisher.TELEGRAPH_CREATEPAGE_CONTENT_LIMIT_BYTES =
      String.mk (Publisher.take_utf8 s.data 0
        (Publisher.TELEGRAPH_CREATEPAGE_CONTENT_LIMIT_BYTES - rustLen "\n\n[truncated]") ++
        "\n\n[truncated]".data) := by
    simp [Publisher.truncate_to_max_bytes_utf8, hne]
  constructor
  · have hb := take_utf8_bytes_le s.data 0
      (Publisher.TELEGRAPH_CREATEPAGE_CONTENT_LIMIT_BYTES - rustLen "\n\n[truncated]")
      (by decide)
    rw [hres]
    show ((Publisher.take_utf8 s.data 0
        (Publisher.TELEGRAPH_CREATEPAGE_CONTENT_LIMIT_BYTES - rustLen "\n\n[truncated]") ++
        "\n\n[truncated]".data).map Char.utf8Size).sum ≤
      Publisher.TELEGRAPH_CREATEPAGE_CONTENT_LIMIT_BYTES
    rw [List.map_append, List.sum_append]
    have hsuffix : (("\n\n[truncated]".data).map Char.utf8Size).sum = 13 := by decide
    have hlim : Publisher.TELEGRAPH_CREATEPAGE_CONTENT_LIMIT_BYTES = 65536 := by decide
    have h13 : rustLen "\n\n[truncated]" = 13 := by decide
    rw [hlim] at hb ⊢
    rw [h13] at hb ⊢
    omega
  · obtain ⟨k, hk⟩ := take_utf8_as_take s.data 0
      (Publisher.TELEGRAPH_CREATEPAGE_CONTENT_LIMIT_BYTES - rustLen "\n\n[truncated]")
    exact ⟨k, by rw [hres, hk]⟩

/-- Helper: the byte length of a replicated character. -/
lemma rustLen_replicate (n : Nat) (c : Char) :
    rustLen (String.mk (List.replicate n c)) = n * c.utf8Size := by
  simp [rustLen, List.map_replicate, List.sum_replicate, smul_eq_mul]

/-- C7 witness: the truncation theorem instantiated at a 70,000-byte string
of `a` characters. -/
theorem c7_truncation_witness :
    rustLen (Publisher.truncate_to_max_bytes_utf8 (String.mk (List.replicate 70000 'a'))
        Publisher.TELEGRAPH_CREATEPAGE_CONTENT_LIMIT_BYTES) ≤
      Publisher.TELEGRAPH_CREATEPAGE_CONTENT_LIMIT_BYTES ∧
    ∃ k, (Publisher.truncate_to_max_bytes_utf8 (String.mk (List.replicate 70000 'a'))
        Publisher.TELEGRAPH_CREATEPAGE_CONTENT_LIMIT_BYTES).data =
      (String.mk (List.replicate 70000 'a')).data.take k ++ "\n\n[truncated]".data :=
  c7_truncation (String.mk (List.replicate 70000 'a'))
    (by rw [rustLen_replicate]; decide)

/-- C6: the `send_to_telegram` length check routes a payload whose
tag-stripped UTF-16 length is exactly the 4096-unit limit to the direct
send path, and a payload one unit over to the telegra.ph fallback path. -/
theorem c6_boundary (content : String) :
    (Publisher.telegram_text_len_utf16_after_entities_guess content =
        Publisher.TELEGRAM_SENDMESSAGE_TEXT_LIMIT_UTF16 →
      Publisher.message_exceeds_telegram_limit content = false) ∧
    (Publisher.telegram_text_len_utf16_after_entities_guess content =
        Publisher.TELEGRAM_SENDMESSAGE_TEXT_LIMIT_UTF16 + 1 →
      Publisher.message_exceeds_telegram_limit content = true) := by
  constructor <;> intro h <;>
    simp [Publisher.message_exceeds_telegram_limit, h,
      Publisher.TELEGRAM_SENDMESSAGE_TEXT_LIMIT_UTF16]

/-- Helper: the tag-stripping loop keeps a run of `a` characters intact. -/
lemma strip_go_replicate_a (n : Nat) :
    ∀ (b : Bool) (tb : List Char),
      Publisher.strip_go (List.replicate n 'a') false b tb = List.replicate n 'a' := by
  induction n with
  | zero => intro b tb; rfl
  | succ m ih =>
    intro b tb
    rw [List.replicate_succ]
    have h1 : ('a' = '<') = False := by simp
    have h2 : rustIsWhitespace 'a' = false := by decide
    simp only [Publisher.strip_go, h1, if_false, h2, Bool.false_eq_true]
    rw [ih]

/-- Helper: `dropWhile` of whitespace keeps a run of `a` characters. -/
lemma dropWhile_ws_replicate_a (n : Nat) :
    List.dropWhile rustIsWhitespace (List.replicate n 'a') = List.replicate n 'a' := by
  cases n with
  | zero => rfl
  | succ m =>
    rw [List.replicate_succ, List.dropWhile_cons]
    have h2 : rustIsWhitespace 'a' = false := by decide
    simp [h2]

/-- Helper: trimming a run of `a` characters is the identity. -/
lemma rustTrim_replicate_a (n : Nat) :
    rustTrim (List.replicate n 'a') = List.replicate n 'a' := by
  unfold rustTrim
  rw [dropWhile_ws_replicate_a, List.reverse_replicate, dropWhile_ws_replicate_a,
    List.reverse_replicate]

/-- Helper: the tag-stripped UTF-16 length of a run of `n` `a` characters is
exactly `n`. -/
lemma telegram_len_replicate_a (n : Nat) :
    Publisher.telegram_text_len_utf16_after_entities_guess
      (String.mk (List.replicate n 'a')) = n := by
  unfold Publisher.telegram_text_len_utf16_after_entities_guess
    Publisher.strip_html_tags_to_text
  rw [show (String.mk (List.replicate n 'a')).data = List.replicate n 'a' from rfl,
    strip_go_replicate_a, rustTrim_replicate_a]
  simp [utf16Count, List.map_replicate, List.sum_replicate]

/-- C6 witness: the boundary theorem instantiated at payloads of exactly
4096 and 4097 plain `a` characters. -/
theorem c6_boundary_witness :
    Publisher.message_exceeds_telegram_limit
      (String.mk (List.replicate 4096 'a')) = false ∧
    Publisher.message_exceeds_telegram_limit
      (String.mk (List.replicate 4097 'a')) = true :=
  ⟨(c6_boundary (String.mk (List.replicate 4096 'a'))).1 (telegram_len_replicate_a 4096),
   (c6_boundary (String.mk (List.replicate 4097 'a'))).2
     (by rw [telegram_len_replicate_a]; decide)⟩

/-- C8: under both image providers, a successful payload is always
PNG-signature-valid, and whenever decoding reaches image bytes that fail the
PNG signature check under a success HTTP status, the outcome is the forced
soft failure `ApiReturnedError` with `finish_reason` `some "error"`. -/
theorem c8_png_validation
    (decodeB64 download : String → Option (List Nat)) (status : Nat)
    (gjson : Option Illustrator.GeminiGenerateContentResponse)
    (ojson : Option Illustrator.ChatResponse) (response_text : String) :
    (∀ bytes fr, Illustrator.parse_gemini_image_from_generate_content_response
        decodeB64 status gjson response_text = .ok (bytes, fr) →
      Illustrator.looks_like_png bytes = true) ∧
    (∀ bytes fr, Illustrator.parse_openrouter_image_from_chat_response
        decodeB64 download status ojson response_text = .ok (bytes, fr) →
      Illustrator.looks_like_png bytes = true) ∧
    (∀ rd candidate part inline bytes,
      isSuccessStatus status = true →
      gjson = some rd →
      rd.candidates.head? = some candidate →
      candidate.content.parts.find? (fun p => p.inline_data.isSome) = some part →
      part.inline_data = some inline →
      decodeB64 inline.data = some bytes →
      Illustrator.looks_like_png bytes = false →
      Illustrator.parse_gemini_image_from_generate_content_response
          decodeB64 status gjson response_text =
        .error (.ApiReturnedError status "Image bytes are not a valid PNG"
          (some "error"))) ∧
    (∀ rd choice image u bytes,
      isSuccessStatus status = true →
      ojson = some rd →
      rd.choices.head? = some choice →
      choice.message.images.head? = some image →
      image.image_url = some u →
      Illustrator.openrouter_image_bytes decodeB64 download u.url = .ok bytes →
      Illustrator.looks_like_png bytes = false →
      Illustrator.parse_openrouter_image_from_chat_response decodeB64 download status
          ojson response_text =
        .error (.ApiReturnedError status "Image bytes are not a valid PNG"
          (some "error"))) := by
  refine ⟨?_, ?_, ?_, ?_⟩
  · intro bytes fr h
    unfold Illustrator.parse_gemini_image_from_generate_content_response at h
    repeat' split at h
    all_goals simp_all
  · intro bytes fr h
    unfold Illustrator.parse_openrouter_image_from_chat_response at h
    repeat' split at h
    all_goals simp_all
  · intro rd candidate part inline bytes hsucc hjson hcand hfind hinline hdecode hpng
    subst hjson
    unfold Illustrator.parse_gemini_image_from_generate_content_response
    simp [hsucc, hcand, hfind, hinline, hdecode, hpng]
  · intro rd choice image u bytes hsucc hjson hchoice himage hurl hbytes hpng
    subst hjson
    unfold Illustrator.parse_openrouter_image_from_chat_response
    simp [hsucc, hchoice, himage, hurl, hbytes, hpng]

/-- A concrete Gemini response carrying a 3-byte non-PNG payload (used only
to exercise the PNG-validation theorem). -/
def gdemoResponse : Illustrator.GeminiGenerateContentResponse :=
  ⟨[⟨⟨[⟨none, some ⟨some "image/png", "QUJD"⟩⟩]⟩⟩]⟩

/-- C8 witness: a 200-status Gemini response whose decoded bytes are not a
PNG is forced to the soft failure, and a successful OpenRouter parse carries
PNG-signature-valid bytes. -/
theorem c8_png_validation_witness :
    Illustrator.parse_gemini_image_from_generate_content_response
        (fun _ => some [65, 66, 67]) 200 (some gdemoResponse) "" =
      .error (.ApiReturnedError 200 "Image bytes are not a valid PNG"
        (some "error")) ∧
    Illustrator.looks_like_png Illustrator.PNG_SIGNATURE = true :=
  ⟨(c8_png_validation (fun _ => some [65, 66, 67]) (fun _ => none) 200
      (some gdemoResponse) (some ⟨[⟨⟨none, none,
        [⟨none, some ⟨"data:image/png;base64,iVBOR"⟩⟩]⟩⟩]⟩) "").2.2.1
      gdemoResponse ⟨⟨[⟨none, some ⟨some "image/png", "QUJD"⟩⟩]⟩⟩
      ⟨none, some ⟨some "image/png", "QUJD"⟩⟩ ⟨some "image/png", "QUJD"⟩
      [65, 66, 67] (by decide) rfl rfl (by decide) rfl rfl (by decide),
   (c8_png_validation (fun _ => some Illustrator.PNG_SIGNATURE) (fun _ => none) 200
      (some gdemoResponse)
      (some ⟨[⟨⟨none, none, [⟨none, some ⟨"data:image/png;base64,iVBOR"⟩⟩]⟩⟩]⟩) "").2.1
      Illustrator.PNG_SIGNATURE none rfl⟩

/-- C9: on a success HTTP status with self-reported `finish_reason` of
`error` or `length`, `parse_chat_response` classifies the outcome as the
soft failure `ApiReturnedError` carrying the extracted payload and the
original finish reason, and `process_news_item` still writes that payload to
the stage artifact and returns the finish reason. -/
theorem c9_soft_failure_payload (status : Nat)
    (json : Option Rewriter.ChatResponse) (rd : Rewriter.ChatResponse)
    (choice : Rewriter.Choice) (rest : List Rewriter.Choice) (r : String)
    (hsucc : isSuccessStatus status = true)
    (hjson : json = some rd)
    (hchoices : rd.choices = choice :: rest)
    (hfr : choice.finish_reason = some r)
    (hr : r = "error" ∨ r = "length") :
    Rewriter.parse_chat_response status json =
      .error (.ApiReturnedError status
        (Rewriter.post_process_html_response choice.message.content) (some r)) ∧
    Rewriter.process_news_item (Rewriter.parse_chat_response status json) =
      (some (Rewriter.post_process_html_response choice.message.content),
        .ok (some r)) := by
  have hparse : Rewriter.parse_chat_response status json =
      .error (.ApiReturnedError status
        (Rewriter.post_process_html_response choice.message.content) (some r)) := by
    subst hjson
    simp only [Rewriter.parse_chat_response, hchoices, hsucc, Bool.true_eq_false,
      if_false, hfr]
    rcases hr with rfl | rfl <;> simp
  exact ⟨hparse, by rw [hparse]; rfl⟩

/-- A concrete truncated-completion chat response (used only to exercise the
soft-failure theorem). -/
def rdemoResponse : Rewriter.ChatResponse :=
  ⟨some "id-1",
    [⟨some 0, ⟨some "assistant", "<html><body>Hi</body></html>"⟩, some "length"⟩]⟩

/-- C9 witness: a 200-status response with `finish_reason` `length` and a
well-formed HTML fragment is classified as the soft failure and its payload
is still written to the artifact. -/
theorem c9_soft_failure_payload_witness :
    Rewriter.parse_chat_response 200 (some rdemoResponse) =
      .error (.ApiReturnedError 200
        (Rewriter.post_process_html_response "<html><body>Hi</body></html>")
        (some "length")) ∧
    Rewriter.process_news_item (Rewriter.parse_chat_response 200 (some rdemoResponse)) =
      (some (Rewriter.post_process_html_response "<html><body>Hi</body></html>"),
        .ok (some "length")) :=
  c9_soft_failure_payload 200 (some rdemoResponse) rdemoResponse
    ⟨some 0, ⟨some "assistant", "<html><body>Hi</body></html>"⟩, some "length"⟩ []
    "length" (by decide) rfl rfl rfl (Or.inr rfl)

set_option maxRecDepth 8000

/-- The parsed `body` element of the scenario document
`<html><body><h1>Title</h1><p>Hello <b>world</b></p></body></html>`. -/
def c4ScenarioBody : Publisher.HNode :=
  .elem "body" []
    (.cons (.elem "h1" [] (.cons (.text "Title") .nil))
      (.cons (.elem "p" [] (.cons (.text "Hello ")
        (.cons (.elem "b" [] (.cons (.text "world") .nil)) .nil))) .nil))

/-- C4 counterexample: the claim fails — on the scenario document,
`transform_html` does not return `"<b>Title</b>\n\nHello <b>world</b>\n\n"`
(the separating-space guard inserts a space after each opening `<b>` and the
trimmed text drops the space before the inline `<b>`). -/
theorem c4_counterexample :
    Publisher.transform_html c4ScenarioBody ≠
      "<b>Title</b>\n\nHello <b>world</b>\n\n" := by
  decide

/-- C4 (amended): on the scenario document, `transform_html` returns exactly
`"<b> Title</b>\n\nHello<b> world</b>\n\n"`. -/
theorem c4_amended_output :
    Publisher.transform_html c4ScenarioBody =
      "<b> Title</b>\n\nHello<b> world</b>\n\n" := by
  decide

/-- Helper: an infix of a list is an infix of the list with one more element
in front. -/
lemma infixConsOf {α : Type} {p l : List α} (a : α) (h : p <:+: l) :
    p <:+: a :: l := by
  rcases h with ⟨s, t, hst⟩
  exact ⟨a :: s, t, by rw [List.cons_append, List.cons_append, hst]⟩

/-- Helper: an infix of a cons is a prefix of it or an infix of the tail. -/
lemma infixConsElim {α : Type} {p l : List α} {a : α} (h : p <:+: a :: l) :
    p <+: a :: l ∨ p <:+: l := by
  rcases h with ⟨s, t, hst⟩
  cases s with
  | nil => exact Or.inl ⟨t, by simpa using hst⟩
  | cons x xs =>
    right
    simp only [List.cons_append] at hst
    injection hst with h1 h2
    exact ⟨xs, t, h2⟩

/-- Helper: a cons prefix forces the head and leaves a prefix of the tail. -/
lemma prefixConsElim {α : Type} {a : α} {p l : List α} (h : a :: p <+: l) :
    ∃ tl, l = a :: tl ∧ p <+: tl := by
  rcases h with ⟨t, ht⟩
  refine ⟨p ++ t, ?_, ⟨t, rfl⟩⟩
  rw [← ht, List.cons_append]

/-- Helper: a pattern longer than the list is not an infix of it. -/
lemma notInfixOfShort {α : Type} {p l : List α} (hlen : l.length < p.length) :
    ¬ p <:+: l :=
  fun h => absurd h.length_le (by omega)

/-- Helper: `collapse_newlines` preserves the head of the list. -/
lemma collapse_newlines_head (l : List Char) :
    (Publisher.collapse_newlines l).head? = l.head? := by
  rcases l with _ | ⟨c, _ | ⟨d, _ | ⟨e, rest⟩⟩⟩
  · rfl
  · rfl
  · rfl
  · simp only [Publisher.collapse_newlines]
    split
    · rename_i hcond
      rw [hcond.1]
      rfl
    · rfl

/-- Helper: `collapse_spaces` preserves the head of the list. -/
lemma collapse_spaces_head (l : List Char) :
    (Publisher.collapse_spaces l).head? = l.head? := by
  rcases l with _ | ⟨c, _ | ⟨d, rest⟩⟩
  · rfl
  · rfl
  · simp only [Publisher.collapse_spaces]
    split
    · rename_i hcond
      rw [hcond.1]
      rfl
    · rfl

/-- Helper: when no newline triple starts at the head, `collapse_newlines`
keeps the head character and recurses on the tail. -/
lemma collapse_newlines_cons (c : Char) (l : List Char)
    (h : ¬(c = '\n' ∧ l.head? = some '\n' ∧ l.tail.head? = some '\n')) :
    Publisher.collapse_newlines (c :: l) = c :: Publisher.collapse_newlines l := by
  rcases l with _ | ⟨d, _ | ⟨e, rest⟩⟩
  · rfl
  · rfl
  · simp only [Publisher.collapse_newlines]
    rw [if_neg]
    intro hcond
    exact h ⟨hcond.1, by rw [hcond.2.1]; rfl, by rw [hcond.2.2]; rfl⟩

/-- Helper: when no space pair starts at the head, `collapse_spaces` keeps
the head character and recurses on the tail. -/
lemma collapse_spaces_cons (c : Char) (l : List Char)
    (h : ¬(c = ' ' ∧ l.head? = some ' ')) :
    Publisher.collapse_spaces (c :: l) = c :: Publisher.collapse_spaces l := by
  rcases l with _ | ⟨d, rest⟩
  · rfl
  · simp only [Publisher.collapse_spaces]
    rw [if_neg]
    intro hcond
    exact h ⟨hcond.1, by rw [hcond.2]; rfl⟩

/-- Helper: a single left-to-right `replace` pass over newline triples leaves
no newline triple, provided the input has no run of four newlines (a run of
four would survive as a run of three, see the C5 counterexample). -/
lemma collapse_newlines_no_triple : ∀ l : List Char,
    ¬(['\n', '\n', '\n', '\n'] <:+: l) →
    ¬(['\n', '\n', '\n'] <:+: Publisher.collapse_newlines l) := by
  intro l
  induction l using Publisher.collapse_newlines.induct with
  | case1 =>
    intro _ hcontra
    have := hcontra.length_le
    simp [Publisher.collapse_newlines] at this
  | case2 c =>
    intro _ hcontra
    have := hcontra.length_le
    simp [Publisher.collapse_newlines] at this
  | case3 c d =>
    intro _ hcontra
    have := hcontra.length_le
    simp [Publisher.collapse_newlines] at this
  | case4 c d e rest hcond ih =>
    obtain ⟨hc, hd, he⟩ := hcond
    subst hc; subst hd; subst he
    intro h
    have hr4 : ¬(['\n', '\n', '\n', '\n'] <:+: rest) :=
      fun hx => h (infixConsOf _ (infixConsOf _ (infixConsOf _ hx)))
    have hhead : rest.head? ≠ some '\n' := by
      intro hh
      rcases rest with _ | ⟨r1, rs⟩
      · simp at hh
      · simp only [List.head?_cons, Option.some.injEq] at hh
        subst hh
        exact h ⟨[], rs, rfl⟩
    have heq : Publisher.collapse_newlines ('\n' :: '\n' :: '\n' :: rest) =
        '\n' :: '\n' :: Publisher.collapse_newlines rest := by
      simp [Publisher.collapse_newlines]
    rw [heq]
    intro hcontra
    rcases infixConsElim hcontra with hpre | h1
    · obtain ⟨t1, ht1, hp1⟩ := prefixConsElim hpre
      injection ht1 with hx1 ht1b
      subst ht1b
      obtain ⟨t2, ht2, hp2⟩ := prefixConsElim hp1
      injection ht2 with hx2 ht2b
      subst ht2b
      obtain ⟨t3, ht3, _⟩ := prefixConsElim hp2
      apply hhead
      rw [← collapse_newlines_head, ht3]
      rfl
    · rcases infixConsElim h1 with hpre2 | h2
      · obtain ⟨t1, ht1, hp1⟩ := prefixConsElim hpre2
        injection ht1 with hx1 ht1b
        subst ht1b
        obtain ⟨t2, ht2, _⟩ := prefixConsElim hp1
        apply hhead
        rw [← collapse_newlines_head, ht2]
        rfl
      · exact ih hr4 h2
  | case5 c d e rest hncond ih =>
    intro h
    have hsub : ¬(['\n', '\n', '\n', '\n'] <:+: d :: e :: rest) :=
      fun hx => h (infixConsOf c hx)
    have ihx := ih hsub
    have heq : Publisher.collapse_newlines (c :: d :: e :: rest) =
        c :: Publisher.collapse_newlines (d :: e :: rest) := by
      simp only [Publisher.collapse_newlines]
      rw [if_neg hncond]
    rw [heq]
    intro hcontra
    rcases infixConsElim hcontra with hpre | h1
    · obtain ⟨t1, ht1, hp1⟩ := prefixConsElim hpre
      injection ht1 with hc ht1b
      subst hc
      subst ht1b
      obtain ⟨t2, ht2, hp2⟩ := prefixConsElim hp1
      have hd : d = '\n' := by
        have hh := collapse_newlines_head (d :: e :: rest)
        rw [ht2] at hh
        simp only [List.head?_cons, Option.some.injEq] at hh
        exact hh.symm
      subst hd
      have he : e ≠ '\n' := fun hee => hncond ⟨rfl, rfl, hee⟩
      have heq2 : Publisher.collapse_newlines ('\n' :: e :: rest) =
          '\n' :: Publisher.collapse_newlines (e :: rest) :=
        collapse_newlines_cons _ _ (by
          intro hcond
          apply he
          simpa using hcond.2.1)
      rw [heq2] at ht2
      injection ht2 with hx2 ht2b
      subst ht2b
      obtain ⟨t3, ht3, _⟩ := prefixConsElim hp2
      apply he
      have hh := collapse_newlines_head (e :: rest)
      rw [ht3] at hh
      simp only [List.head?_cons, Option.some.injEq] at hh
      exact hh.symm
    · exact ihx h1

/-- Helper: the newline-collapsing pass cannot create a triple of any other
character (it only deletes newlines that sit between newlines). -/
lemma collapse_newlines_keeps_no_triple (x : Char) (hx : x ≠ '\n') :
    ∀ l : List Char, ¬([x, x, x] <:+: l) →
      ¬([x, x, x] <:+: Publisher.collapse_newlines l) := by
  intro l
  induction l using Publisher.collapse_newlines.induct with
  | case1 =>
    intro h
    exact h
  | case2 c =>
    intro h
    exact h
  | case3 c d =>
    intro h
    exact h
  | case4 c d e rest hcond ih =>
    obtain ⟨hc, hd, he⟩ := hcond
    subst hc; subst hd; subst he
    intro h
    have hr : ¬([x, x, x] <:+: rest) :=
      fun hy => h (infixConsOf _ (infixConsOf _ (infixConsOf _ hy)))
    have heq : Publisher.collapse_newlines ('\n' :: '\n' :: '\n' :: rest) =
        '\n' :: '\n' :: Publisher.collapse_newlines rest := by
      simp [Publisher.collapse_newlines]
    rw [heq]
    intro hcontra
    rcases infixConsElim hcontra with hpre | h1
    · obtain ⟨t1, ht1, _⟩ := prefixConsElim hpre
      injection ht1 with hx1 _
      exact hx hx1.symm
    · rcases infixConsElim h1 with hpre2 | h2
      · obtain ⟨t1, ht1, _⟩ := prefixConsElim hpre2
        injection ht1 with hx1 _
        exact hx hx1.symm
      · exact ih hr h2
  | case5 c d e rest hncond ih =>
    intro h
    have hsub : ¬([x, x, x] <:+: d :: e :: rest) :=
      fun hy => h (infixConsOf c hy)
    have ihx := ih hsub
    have heq : Publisher.collapse_newlines (c :: d :: e :: rest) =
        c :: Publisher.collapse_newlines (d :: e :: rest) := by
      simp only [Publisher.collapse_newlines]
      rw [if_neg hncond]
    rw [heq]
    intro hcontra
    rcases infixConsElim hcontra with hpre | h1
    · obtain ⟨t1, ht1, hp1⟩ := prefixConsElim hpre
      injection ht1 with hc ht1b
      subst ht1b
      obtain ⟨t2, ht2, hp2⟩ := prefixConsElim hp1
      have hd : d = x := by
        have hh := collapse_newlines_head (d :: e :: rest)
        rw [ht2] at hh
        simp only [List.head?_cons, Option.some.injEq] at hh
        exact hh.symm
      have heq2 : Publisher.collapse_newlines (d :: e :: rest) =
          d :: Publisher.collapse_newlines (e :: rest) :=
        collapse_newlines_cons _ _ (fun hcond => hx (hd ▸ hcond.1))
      rw [heq2] at ht2
      injection ht2 with hx2 ht2b
      subst ht2b
      obtain ⟨t3, ht3, _⟩ := prefixConsElim hp2
      have he : e = x := by
        have hh := collapse_newlines_head (e :: rest)
        rw [ht3] at hh
        simp only [List.head?_cons, Option.some.injEq] at hh
        exact hh.symm
      apply h
      refine ⟨[], rest, ?_⟩
      rw [hc, hd, he]
      rfl
    · exact ihx h1

/-- Helper: a single left-to-right `replace` pass over space pairs leaves no
space pair, provided the input has no run of three spaces (a run of three
would survive as a pair, see the C5 counterexample). -/
lemma collapse_spaces_no_double : ∀ l : List Char,
    ¬([' ', ' ', ' '] <:+: l) →
    ¬([' ', ' '] <:+: Publisher.collapse_spaces l) := by
  intro l
  induction l using Publisher.collapse_spaces.induct with
  | case1 =>
    intro _ hcontra
    have := hcontra.length_le
    simp [Publisher.collapse_spaces] at this
  | case2 c =>
    intro _ hcontra
    have := hcontra.length_le
    simp [Publisher.collapse_spaces] at this
  | case3 c d rest hcond ih =>
    obtain ⟨hc, hd⟩ := hcond
    subst hc; subst hd
    intro h
    have hr : ¬([' ', ' ', ' '] <:+: rest) :=
      fun hy => h (infixConsOf _ (infixConsOf _ hy))
    have hhead : rest.head? ≠ some ' ' := by
      intro hh
      rcases rest with _ | ⟨r1, rs⟩
      · simp at hh
      · simp only [List.head?_cons, Option.some.injEq] at hh
        subst hh
        exact h ⟨[], rs, rfl⟩
    have heq : Publisher.collapse_spaces (' ' :: ' ' :: rest) =
        ' ' :: Publisher.collapse_spaces rest := by
      simp [Publisher.collapse_spaces]
    rw [heq]
    intro hcontra
    rcases infixConsElim hcontra with hpre | h1
    · obtain ⟨t1, ht1, hp1⟩ := prefixConsElim hpre
      injection ht1 with hx1 ht1b
      subst ht1b
      obtain ⟨t2, ht2, _⟩ := prefixConsElim hp1
      apply hhead
      rw [← collapse_spaces_head, ht2]
      rfl
    · exact ih hr h1
  | case4 c d rest hncond ih =>
    intro h
    have hsub : ¬([' ', ' ', ' '] <:+: d :: rest) :=
      fun hy => h (infixConsOf c hy)
    have ihx := ih hsub
    have heq : Publisher.collapse_spaces (c :: d :: rest) =
        c :: Publisher.collapse_spaces (d :: rest) := by
      simp only [Publisher.collapse_spaces]
      rw [if_neg hncond]
    rw [heq]
    intro hcontra
    rcases infixConsElim hcontra with hpre | h1
    · obtain ⟨t1, ht1, hp1⟩ := prefixConsElim hpre
      injection ht1 with hc ht1b
      subst hc
      subst ht1b
      obtain ⟨t2, ht2, _⟩ := prefixConsElim hp1
      have hd : d = ' ' := by
        have hh := collapse_spaces_head (d :: rest)
        rw [ht2] at hh
        simp only [List.head?_cons, Option.some.injEq] at hh
        exact hh.symm
      exact hncond ⟨rfl, hd⟩
    · exact ihx h1

/-- Helper: the space-collapsing pass cannot create a triple of any other
character (it only deletes spaces that sit next to spaces). -/
lemma collapse_spaces_keeps_no_triple (x : Char) (hx : x ≠ ' ') :
    ∀ l : List Char, ¬([x, x, x] <:+: l) →
      ¬([x, x, x] <:+: Publisher.collapse_spaces l) := by
  intro l
  induction l using Publisher.collapse_spaces.induct with
  | case1 =>
    intro h
    exact h
  | case2 c =>
    intro h
    exact h
  | case3 c d rest hcond ih =>
    obtain ⟨hc, hd⟩ := hcond
    subst hc; subst hd
    intro h
    have hr : ¬([x, x, x] <:+: rest) :=
      fun hy => h (infixConsOf _ (infixConsOf _ hy))
    have heq : Publisher.collapse_spaces (' ' :: ' ' :: rest) =
        ' ' :: Publisher.collapse_spaces rest := by
      simp [Publisher.collapse_spaces]
    rw [heq]
    intro hcontra
    rcases infixConsElim hcontra with hpre | h1
    · obtain ⟨t1, ht1, _⟩ := prefixConsElim hpre
      injection ht1 with hx1 _
      exact hx hx1.symm
    · exact ih hr h1
  | case4 c d rest hncond ih =>
    intro h
    have hsub : ¬([x, x, x] <:+: d :: rest) :=
      fun hy => h (infixConsOf c hy)
    have ihx := ih hsub
    have heq : Publisher.collapse_spaces (c :: d :: rest) =
        c :: Publisher.collapse_spaces (d :: rest) := by
      simp only [Publisher.collapse_spaces]
      rw [if_neg hncond]
    rw [heq]
    intro hcontra
    rcases infixConsElim hcontra with hpre | h1
    · obtain ⟨t1, ht1, hp1⟩ := prefixConsElim hpre
      injection ht1 with hc ht1b
      subst ht1b
      obtain ⟨t2, ht2, hp2⟩ := prefixConsElim hp1
      have hd : d = x := by
        have hh := collapse_spaces_head (d :: rest)
        rw [ht2] at hh
        simp only [List.head?_cons, Option.some.injEq] at hh
        exact hh.symm
      have heq2 : Publisher.collapse_spaces (d :: rest) =
          d :: Publisher.collapse_spaces rest :=
        collapse_spaces_cons _ _ (fun hcond => hx (hd ▸ hcond.1))
      rw [heq2] at ht2
      injection ht2 with hx2 ht2b
      subst ht2b
      obtain ⟨t3, ht3, _⟩ := prefixConsElim hp2
      have he : rest.head? = some x := by
        rw [← collapse_spaces_head, ht3]
        rfl
      rcases rest with _ | ⟨r1, rs⟩
      · simp at he
      · simp only [List.head?_cons, Option.some.injEq] at he
        apply h
        refine ⟨[], rs, ?_⟩
        rw [hc, hd, he]
        rfl
    · exact ihx h1

/-- A parsed `body` whose converter output contains a run of four newlines
(two empty paragraphs) and a run of three spaces (inside a text node). -/
def c5CounterexampleBody : Publisher.HNode :=
  .elem "body" []
    (.cons (.elem "p" [] .nil)
      (.cons (.elem "p" [] .nil)
        (.cons (.text "a   b") .nil)))

/-- C5 counterexample: the claim fails — on this document the normalized
output of `transform_html` still contains a run of three newlines and a run
of two spaces, because the single `replace` pass only removes one newline
per non-overlapping triple and one space per non-overlapping pair. -/
theorem c5_counterexample :
    (['\n', '\n', '\n'] <:+: (Publisher.transform_html c5CounterexampleBody).data) ∧
    ([' ', ' '] <:+: (Publisher.transform_html c5CounterexampleBody).data) := by
  decide

/-- C5 (amended): for every input document whose pre-normalization converter
output contains no run of four newlines and no run of three spaces, the
normalized output of `transform_html` contains no run of three newlines and
no run of two spaces.  (Unconditionally the claim is false: the cleanup is a
single non-overlapping left-to-right `replace` pass, so a run of four
newlines survives as three and a run of three spaces survives as two.) -/
theorem c5_amended_normalization (body : Publisher.HNode)
    (h1 : ¬(['\n', '\n', '\n', '\n'] <:+: Publisher.process_one [] body))
    (h2 : ¬([' ', ' ', ' '] <:+: Publisher.process_one [] body)) :
    ¬(['\n', '\n', '\n'] <:+: (Publisher.transform_html body).data) ∧
    ¬([' ', ' '] <:+: (Publisher.transform_html body).data) := by
  have hdata : (Publisher.transform_html body).data =
      Publisher.collapse_spaces
        (Publisher.collapse_newlines (Publisher.process_one [] body)) := rfl
  rw [hdata]
  constructor
  · exact collapse_spaces_keeps_no_triple '\n' (by decide) _
      (collapse_newlines_no_triple _ h1)
  · exact collapse_spaces_no_double _
      (collapse_newlines_keeps_no_triple ' ' (by decide) _ h2)

/-- A small parsed `body` (one paragraph) whose converter output has no long
newline or space runs. -/
def c5WitnessBody : Publisher.HNode :=
  .elem "body" []
    (.cons (.elem "p" [] (.cons (.text "Hi there") .nil)) .nil)

/-- C5 witness: the amended normalization theorem instantiated at a one-
paragraph document. -/
theorem c5_amended_normalization_witness :
    ¬(['\n', '\n', '\n'] <:+: (Publisher.transform_html c5WitnessBody).data) ∧
    ¬([' ', ' '] <:+: (Publisher.transform_html c5WitnessBody).data) :=
  c5_amended_normalization c5WitnessBody (by decide) (by decide)
